import Mathlib

/-!
Verification of the detection-evaluation engine of `opencood/tools/inference.py`
(Where2comm). Boxes are embedded as lists of corners (a corner being an
arbitrary value type `α`, in the code a 3-vector of floats); tensors become
lists, numpy fancy indexing becomes `indexSelect`, Python floats become `ℚ`.
The evaluation loop of `main` becomes an explicit state-passing fold; the
functions of `opencood.utils.eval_utils`, whose source is not part of the
repository snapshot, are modelled from the specification and marked as such.
-/

namespace Where2comm

/-- Corner-index permutation applied in `result2dict` (`perm_pred` in the code). -/
def perm_pred : List Nat := [0, 4, 7, 3, 1, 5, 6, 2]

/-- Corner-index permutation applied in `result2dict` (`perm_label` in the code). -/
def perm_label : List Nat := [3, 2, 1, 0, 7, 6, 5, 4]

/-- Numpy fancy indexing `b[perm]`: pick the rows of `b` named by `perm`, in order. -/
def indexSelect (b : List α) (perm : List Nat) : List α :=
  perm.filterMap (fun i => b[i]?)

/-- Output dictionary shape of `result2dict` and `baseline_pkl2dict`:
`boxes_3d` (a list of 8-corner boxes), `scores_3d`, `labels_3d`. -/
structure OutputDict (α : Type) where
  boxes_3d : List (List α)
  scores_3d : List ℚ
  labels_3d : List ℤ
  deriving DecidableEq, Repr

/-- Embedding of `result2dict(box3d_tensor, score_tensor)`: for each box, when a
score tensor is present the box is reindexed by `perm_label` and then by
`perm_pred`, and its score is read off the score tensor; when the score tensor
is `None` the box is kept as is and the score is `1.0`. Every label is `2`.
An empty input yields the zero-length arrays of the `else` branch. -/
def result2dict (box3d : List (List α)) (score : Option (List ℚ)) : OutputDict α :=
  { boxes_3d := box3d.map (fun b3d =>
      match score with
      | some _ => indexSelect (indexSelect b3d perm_label) perm_pred
      | none => b3d)
    scores_3d := match score with
      | some s => (List.range box3d.length).map (fun i => s.getD i 0)
      | none => box3d.map (fun _ => 1)
    labels_3d := box3d.map (fun _ => 2) }

/-- The permutation actually applied to a predicted box: `perm_label` followed
by `perm_pred`, composed into a single index list. -/
def perm_composed : List Nat := perm_pred.filterMap (fun j => perm_label[j]?)

example : perm_composed = [3, 7, 4, 0, 2, 6, 5, 1] := by decide

example : (result2dict [[0, 1, 2, 3, 4, 5, 6, 7]] (some [1]) : OutputDict ℕ).boxes_3d
    = [[3, 7, 4, 0, 2, 6, 5, 1]] := by decide

/-- Per-threshold entry of `result_stat`: the keys `tp`, `fp`, `gt` follow the
dictionary created in `main` (`{'tp': [], 'fp': [], 'gt': 0}`); `conf` holds
the recorded confidences, modelled from the spec (ThresholdStat carries a
confidence sequence parallel to the TP flags, needed by the AP reduction). -/
structure ThresholdStat where
  tp : List Bool
  fp : List Bool
  conf : List ℚ
  gt : ℕ
  deriving DecidableEq, Repr

/-- The empty per-threshold state `{'tp': [], 'fp': [], 'gt': 0}`. -/
def emptyStat : ThresholdStat := { tp := [], fp := [], conf := [], gt := 0 }

/-- The dictionary `result_stat` created at the start of `main`, keyed by the
three IoU thresholds. -/
def initResultStat : List (ℚ × ThresholdStat) :=
  [(3/10, emptyStat), (5/10, emptyStat), (7/10, emptyStat)]

/-- In-place mutation of the value stored under key `t` of the dictionary. -/
def updateStat (rs : List (ℚ × ThresholdStat)) (t : ℚ)
    (f : ThresholdStat → ThresholdStat) : List (ℚ × ThresholdStat) :=
  rs.map (fun p => if p.1 = t then (p.1, f p.2) else p)

/-- Dictionary read `result_stat[t]`. -/
def lookupStat (rs : List (ℚ × ThresholdStat)) (t : ℚ) : Option ThresholdStat :=
  (rs.find? (fun p => p.1 == t)).map Prod.snd

/-- Modelled from the spec: among the still-unmatched ground-truth boxes, the
one of maximum IoU with the detection, ties broken by lowest ground-truth
index (the fold keeps the earlier entry unless strictly beaten). -/
def bestMatch (iou : β → β → ℚ) (d : β) (gts : List (ℕ × β)) : Option (ℕ × ℚ) :=
  gts.foldl (fun acc jg =>
    match acc with
    | none => some (jg.1, iou d jg.2)
    | some jv => if jv.2 < iou d jg.2 then some (jg.1, iou d jg.2) else some jv) none

/-- Modelled from the spec: greedy confidence-first one-to-one matching.
Detections are given in descending score order; each is marked TP when its
best still-unmatched ground truth reaches the threshold, which then leaves
the pool, and FP otherwise. -/
def classifyDets (iou : β → β → ℚ) (thr : ℚ) :
    List β → List (ℕ × β) → List Bool
  | [], _ => []
  | d :: ds, gts =>
    match bestMatch iou d gts with
    | some jv =>
      if thr ≤ jv.2 then
        true :: classifyDets iou thr ds (gts.filter (fun g => g.1 != jv.1))
      else
        false :: classifyDets iou thr ds gts
    | none => false :: classifyDets iou thr ds gts

/-- Modelled from the spec: the single per-frame per-threshold mutation of a
ThresholdStat — append the frame's TP flags (and their complements as FP
flags) and confidences in descending-score order, and add the frame's
ground-truth count. -/
def recordFrame (iou : β → β → ℚ) (thr : ℚ) (pred : List β) (score : List ℚ)
    (gt : List β) (st : ThresholdStat) : ThresholdStat :=
  let sorted := (pred.zip score).mergeSort (fun a b => decide (b.2 ≤ a.2))
  let flags := classifyDets iou thr (sorted.map Prod.fst) gt.enum
  { tp := st.tp ++ flags
    fp := st.fp ++ flags.map not
    conf := st.conf ++ sorted.map Prod.snd
    gt := st.gt + gt.length }

/-- Modelled from the spec: `eval_utils.caluclate_tp_fp` (source not in the
snapshot) classifies the frame at the given threshold and mutates exactly
that threshold's entry of `result_stat`. -/
def caluclate_tp_fp (iou : β → β → ℚ) (pred : List β) (score : List ℚ)
    (gt : List β) (rs : List (ℚ × ThresholdStat)) (thr : ℚ) :
    List (ℚ × ThresholdStat) :=
  updateStat rs thr (recordFrame iou thr pred score gt)

/-- What one iteration of the data loader yields to the loop body: the frame
identifier `sample_idx`, the fusion pipeline's outputs (`pred_box_tensor`,
possibly `None`, with `pred_score` and `gt_box_tensor`), and the comm rate
reported when running under `intermediate_with_comm`. -/
structure FrameData (α : Type) where
  frame_id : ℤ
  pred_box : Option (List (List α))
  pred_score : List ℚ
  gt_box : List (List α)
  comm_rate : ℚ
  deriving DecidableEq, Repr

/-- The mutable state threaded through the evaluation loop of `main`:
`result_stat`, `total_comm_rates`, and the artifact paths written so far
(npy dumps and visualization images). -/
structure EvalState where
  result_stat : List (ℚ × ThresholdStat)
  total_comm_rates : List ℚ
  artifacts : List String
  deriving DecidableEq, Repr

/-- Loop state at the start of `main`: the fresh `result_stat`, no comm-rate
samples, no artifacts. -/
def initEvalState : EvalState :=
  { result_stat := initResultStat, total_comm_rates := [], artifacts := [] }

/-- Zero-padded rendering of a frame id, as in `'%05d' % frame_id`. -/
def pad5 (n : ℤ) : String :=
  let s := toString n.natAbs
  let p := String.mk (List.replicate (5 - s.length) '0') ++ s
  if n < 0 then "-" ++ p else p

/-- The fusion methods accepted by the `assert` at the top of `main`. -/
def supportedFusionMethods : List String :=
  ["late", "early", "intermediate", "intermediate_with_comm", "no"]

/-- Boolean check that `pat` occurs at the start of `l`. -/
def subAt [DecidableEq β] : List β → List β → Bool
  | [], _ => true
  | _ :: _, [] => false
  | a :: as, b :: bs => decide (a = b) && subAt as bs

/-- Boolean check that `pat` occurs somewhere inside `l`. -/
def hasSub [DecidableEq β] (pat : List β) : List β → Bool
  | [] => subAt pat []
  | b :: bs => subAt pat (b :: bs) || hasSub pat bs

/-- Python's `pat in s` on strings: substring containment. -/
def containsSub (s pat : String) : Bool := hasSub pat.toList s.toList

/-- Part of the loop body of `main` after the fusion dispatch: skip the frame
when `pred_box_tensor is None`; otherwise, unless `test_inference` is set,
run `caluclate_tp_fp` once per threshold (0.3 then 0.5 then 0.7), and then
record the npy and visualization artifacts whose names use `frame_id`. -/
def frameBody (iou : List α → List α → ℚ) (test_inference save_npy : Bool)
    (save_vis_n : ℤ) (i : ℕ) (st : EvalState) (fd : FrameData α) : EvalState :=
  match fd.pred_box with
  | none => st
  | some pb =>
    let st1 :=
      if test_inference then st
      else { st with result_stat :=
        (caluclate_tp_fp iou pb fd.pred_score fd.gt_box
          (caluclate_tp_fp iou pb fd.pred_score fd.gt_box
            (caluclate_tp_fp iou pb fd.pred_score fd.gt_box st.result_stat (3/10))
            (5/10))
          (7/10)) }
    let st2 :=
      if save_npy then
        { st1 with artifacts := st1.artifacts ++ ["npy/" ++ toString fd.frame_id] }
      else st1
    if save_vis_n ≠ 0 ∧ (i : ℤ) < save_vis_n then
      { st2 with artifacts := st2.artifacts ++
          ["vis_3d/3d_" ++ pad5 fd.frame_id ++ ".png",
           "vis_bev/bev_" ++ pad5 fd.frame_id ++ ".png"] }
    else st2

/-- One iteration of the evaluation loop of `main`: dispatch on the
fusion-method string (the `intermediate_with_comm` branch also appends the
frame's comm rate to `total_comm_rates`, before the `None` check), raising
`NotImplementedError` for any other string, then run the rest of the body. -/
def processFrame (iou : List α → List α → ℚ) (fusion_method : String)
    (test_inference save_npy : Bool) (save_vis_n : ℤ) (i : ℕ)
    (st : EvalState) (fd : FrameData α) : Except String EvalState :=
  if fusion_method = "late" ∨ fusion_method = "early"
      ∨ fusion_method = "intermediate" ∨ fusion_method = "no" then
    Except.ok (frameBody iou test_inference save_npy save_vis_n i st fd)
  else if fusion_method = "intermediate_with_comm" then
    Except.ok (frameBody iou test_inference save_npy save_vis_n i
      { st with total_comm_rates := st.total_comm_rates ++ [fd.comm_rate] } fd)
  else
    Except.error "NotImplementedError"

/-- The comm-rate reduction at the end of `main`:
`sum(total_comm_rates)/len(total_comm_rates)` when samples exist, else `0`. -/
def commMean (l : List ℚ) : ℚ :=
  if 0 < l.length then l.sum / (l.length : ℚ) else 0

/-- Running (cumulative TP, cumulative FP) counts along a TP-flag sequence. -/
def cumCounts (t f : ℕ) : List Bool → List (ℕ × ℕ)
  | [] => []
  | b :: bs =>
    let t2 := if b then t + 1 else t
    let f2 := if b then f else f + 1
    (t2, f2) :: cumCounts t2 f2 bs

/-- Modelled from the spec: make the precision sequence monotonically
non-increasing from the high-recall end (each entry becomes the maximum of
itself and everything after it). -/
def interpPrec : List ℚ → List ℚ
  | [] => []
  | p :: ps =>
    let rest := interpPrec ps
    max p (rest.headD p) :: rest

/-- Modelled from the spec: area under the recall-precision step function,
summing recall-delta times interpolated precision; `prev` is the previous
recall level. -/
def apFromRP (prev : ℚ) : List (ℚ × ℚ) → ℚ
  | [] => 0
  | rp :: rest => (rp.1 - prev) * rp.2 + apFromRP rp.1 rest

/-- Modelled from the spec: the AP reduction for one ThresholdStat — stable
sort by descending confidence, cumulative TP/FP, precision with a zero
denominator defined as 0, recall over the ground-truth count (AP is 0 when
that count is 0 or nothing was recorded), interpolation, integration. -/
def calc_ap (st : ThresholdStat) : ℚ :=
  if st.gt = 0 then 0
  else
    let dets := (st.conf.zip st.tp).mergeSort (fun a b => decide (b.1 ≤ a.1))
    let cc := cumCounts 0 0 (dets.map Prod.snd)
    let prec := cc.map (fun tf =>
      if tf.1 + tf.2 = 0 then (0 : ℚ) else (tf.1 : ℚ) / ((tf.1 : ℚ) + (tf.2 : ℚ)))
    let recl := cc.map (fun tf => (tf.1 : ℚ) / (st.gt : ℚ))
    apFromRP 0 (recl.zip (interpPrec prec))

/-- Modelled from the spec: `eval_utils.eval_final_results` (source not in
the snapshot) reads the accumulator once and returns the AP at 0.3, 0.5
and 0.7. -/
def eval_final_results (rs : List (ℚ × ThresholdStat)) : ℚ × ℚ × ℚ :=
  ((lookupStat rs (3/10)).elim 0 calc_ap,
   (lookupStat rs (5/10)).elim 0 calc_ap,
   (lookupStat rs (7/10)).elim 0 calc_ap)

/-- Left-pad a digit string with zeros to `dp` characters. -/
def padZeros (dp : ℕ) (s : String) : String :=
  String.mk (List.replicate (dp - s.length) '0') ++ s

/-- Rounding of a rational to the nearest integer, halves up:
`⌊q + 1/2⌋`, written out on the numerator and denominator so that it
evaluates by computation. -/
def roundHalfUp (q : ℚ) : ℤ := Int.fdiv (2 * q.num + q.den) (2 * q.den)

/-- Fixed-point decimal rendering with `dp` digits after the point, the
embedding of Python's `'{:.0Nf}'.format` applied to a rational value. -/
def fmtFixed (dp : ℕ) (q : ℚ) : String :=
  let n : ℤ := roundHalfUp (q * (10 : ℚ) ^ dp)
  let sign := if n < 0 then "-" else ""
  sign ++ toString (n.natAbs / 10 ^ dp) ++ "." ++ padZeros dp (toString (n.natAbs % 10 ^ dp))

/-- The report message of `main`: the base format string, overwritten by the
longer one carrying ` | comm_thre:` when `opt.comm_thre is not None`. -/
def mainReport (epoch_id : String) (ap_30 ap_50 ap_70 comm : ℚ)
    (comm_thre : Option ℚ) : String :=
  let msg := "Epoch: " ++ epoch_id ++ " | AP @0.3: " ++ fmtFixed 4 ap_30
    ++ " | AP @0.5: " ++ fmtFixed 4 ap_50 ++ " | AP @0.7: " ++ fmtFixed 4 ap_70
    ++ " | comm_rate: " ++ fmtFixed 6 comm ++ "\n"
  match comm_thre with
  | none => msg
  | some ct => "Epoch: " ++ epoch_id ++ " | AP @0.3: " ++ fmtFixed 4 ap_30
    ++ " | AP @0.5: " ++ fmtFixed 4 ap_50 ++ " | AP @0.7: " ++ fmtFixed 4 ap_70
    ++ " | comm_rate: " ++ fmtFixed 6 comm ++ " | comm_thre: " ++ fmtFixed 4 ct ++ "\n"

/-- Everything `main` produces after the loop: the final loop state, the three
AP values, the mean comm rate, and the lines appended to `result.txt`. -/
structure RunOutput where
  final_state : EvalState
  ap_30 : ℚ
  ap_50 : ℚ
  ap_70 : ℚ
  comm_rates : ℚ
  report_lines : List String
  deriving DecidableEq, Repr

/-- The `for i, batch_data in enumerate(data_loader)` loop of `main`: run the
body on each frame in order, threading the state, with `i` counting every
yielded frame; a raised exception aborts the run. -/
def runLoop (iou : List α → List α → ℚ) (fusion_method : String)
    (test_inference save_npy : Bool) (save_vis_n : ℤ) :
    ℕ → EvalState → List (FrameData α) → Except String EvalState
  | _, st, [] => Except.ok st
  | i, st, fd :: rest =>
    match processFrame iou fusion_method test_inference save_npy save_vis_n i st fd with
    | Except.error e => Except.error e
    | Except.ok st2 => runLoop iou fusion_method test_inference save_npy save_vis_n (i+1) st2 rest

/-- Embedding of `main`: validate the fusion method (the `assert` fires before
any frame is touched), derive `test_inference` from the configured test
directory, run the loop over the frames, reduce the comm rates and the
accumulator, and append the single report line. -/
def mainRun (iou : List α → List α → ℚ) (fusion_method test_dir : String)
    (save_npy : Bool) (save_vis_n : ℤ) (comm_thre : Option ℚ) (epoch_id : String)
    (frames : List (FrameData α)) : Except String RunOutput :=
  if fusion_method ∈ supportedFusionMethods then
    let test_inference := containsSub test_dir "test.json"
    match runLoop iou fusion_method test_inference save_npy save_vis_n 0 initEvalState frames with
    | Except.error e => Except.error e
    | Except.ok st =>
      let cr := commMean st.total_comm_rates
      let aps := eval_final_results st.result_stat
      Except.ok { final_state := st, ap_30 := aps.1, ap_50 := aps.2.1, ap_70 := aps.2.2,
                  comm_rates := cr,
                  report_lines := [mainReport epoch_id aps.1 aps.2.1 aps.2.2 cr comm_thre] }
  else Except.error "AssertionError"

/-- Projection of a frame onto everything except its identifier. -/
def stripId (fd : FrameData α) : Option (List (List α)) × List ℚ × List (List α) × ℚ :=
  (fd.pred_box, fd.pred_score, fd.gt_box, fd.comm_rate)

/-- Projection of the loop state onto the evaluation-relevant part (the
accumulator and the comm-rate samples), dropping the artifact names. -/
def stripState (st : EvalState) : List (ℚ × ThresholdStat) × List ℚ :=
  (st.result_stat, st.total_comm_rates)

/-- Projection of the loop state onto the side-channel part (comm-rate
samples and artifact names), dropping the accumulator. -/
def sideState (st : EvalState) : List ℚ × List String :=
  (st.total_comm_rates, st.artifacts)

/-- Projection of the run output onto everything except the artifact names. -/
def stripOutput (o : RunOutput) :
    List (ℚ × ThresholdStat) × List ℚ × ℚ × ℚ × ℚ × ℚ × List String :=
  (o.final_state.result_stat, o.final_state.total_comm_rates,
   o.ap_30, o.ap_50, o.ap_70, o.comm_rates, o.report_lines)

section

unseal Rat.add Rat.mul Rat.inv Rat.sub

/-- A constant IoU function handy for concrete evaluations. -/
def iouZero : List ℕ → List ℕ → ℚ := fun _ _ => 0

/-- A concrete frame handy for concrete evaluations. -/
def sampleFrame : FrameData ℕ :=
  { frame_id := 7, pred_box := some [[0, 1, 2, 3, 4, 5, 6, 7]],
    pred_score := [9/10], gt_box := [[0, 1, 2, 3, 4, 5, 6, 7]], comm_rate := 1/4 }

example : containsSub "dair/test.json" "test.json" = true := by decide
example : containsSub "dair/val.json" "test.json" = false := by decide
example : fmtFixed 4 (1/2) = "0.5000" := by decide
example : fmtFixed 6 (1/5) = "0.200000" := by decide
example : mainRun iouZero "bogus" "d" false 0 none "e" [sampleFrame]
    = Except.error "AssertionError" := by rfl
example :
    ((mainRun iouZero "intermediate_with_comm" "d" false 0 none "e"
      [{ sampleFrame with pred_box := none }]).map
      (fun o => (o.final_state.total_comm_rates, decide (o.final_state.result_stat = initResultStat)))).toOption
    = some ([1/4], true) := by decide
example :
    ((mainRun iouZero "late" "d" false 0 none "e" []).map (fun o => o.report_lines)).toOption
    = some ["Epoch: e | AP @0.3: 0.0000 | AP @0.5: 0.0000 | AP @0.7: 0.0000 | comm_rate: 0.000000\n"] := by decide

theorem indexSelect_composed (b : List α) (h : b.length = 8) :
    indexSelect (indexSelect b perm_label) perm_pred = indexSelect b perm_composed := by
  rcases b with _|⟨a0,_|⟨a1,_|⟨a2,_|⟨a3,_|⟨a4,_|⟨a5,_|⟨a6,_|⟨a7,t⟩⟩⟩⟩⟩⟩⟩⟩ <;>
    simp only [List.length_cons, List.length_nil] at h <;> try omega
  have ht : t = [] := List.eq_nil_of_length_eq_zero (by omega)
  subst ht
  rfl

/-- C1, counterexample: on the corner array `[0,…,7]` the predicted-box path
of `result2dict` produces neither the `perm_pred`-reordered nor the
`perm_label`-reordered corners, so a predicted box is not converted by
"exactly the one permutation matching its source format". -/
theorem result2dict_not_single_permutation :
    (result2dict [[0, 1, 2, 3, 4, 5, 6, 7]] (some [1]) : OutputDict ℕ).boxes_3d
        ≠ [indexSelect [0, 1, 2, 3, 4, 5, 6, 7] perm_pred]
    ∧ (result2dict [[0, 1, 2, 3, 4, 5, 6, 7]] (some [1]) : OutputDict ℕ).boxes_3d
        ≠ [indexSelect [0, 1, 2, 3, 4, 5, 6, 7] perm_label] := by decide

/-- C1 (amended): box canonicalization is a fixed index permutation of the
8-corner array (no geometric recomputation), and the two distinct
permutations `perm_pred` and `perm_label` are applied in sequence to each
predicted box, so a predicted box is reordered by their fixed composition
`perm_composed`; label-path boxes (score `None`) are not permuted at all. -/
theorem result2dict_composed_permutation (bs : List (List α)) (s : List ℚ)
    (h : ∀ b ∈ bs, b.length = 8) :
    (result2dict bs (some s)).boxes_3d = bs.map (fun b => indexSelect b perm_composed)
    ∧ (result2dict bs none).boxes_3d = bs
    ∧ perm_pred ≠ perm_label := by
  refine ⟨?_, by simp [result2dict], by decide⟩
  simp only [result2dict]
  exact List.map_congr_left (fun b hb => indexSelect_composed b (h b hb))

/-- Witness for C1's amended theorem at a concrete box. -/
theorem result2dict_composed_permutation_witness :
    (result2dict [[0, 1, 2, 3, 4, 5, 6, 7]] (some [9/10]) : OutputDict ℕ).boxes_3d
        = [[0, 1, 2, 3, 4, 5, 6, 7]].map (fun b => indexSelect b perm_composed)
    ∧ (result2dict [[0, 1, 2, 3, 4, 5, 6, 7]] none : OutputDict ℕ).boxes_3d
        = [[0, 1, 2, 3, 4, 5, 6, 7]]
    ∧ perm_pred ≠ perm_label :=
  result2dict_composed_permutation [[0, 1, 2, 3, 4, 5, 6, 7]] [9/10] (by decide)

/-- C10: with `score_tensor = None`, `result2dict` keeps every box's corner
order, assigns score `1.0` and label `2` to each box, and an empty input box
tensor yields the zero-length `boxes_3d` of shape `(0, 8, 3)` together with
zero-length score and label arrays. -/
theorem result2dict_score_none (bs : List (List α)) (s : List ℚ) :
    (result2dict bs none).boxes_3d = bs
    ∧ (result2dict bs none).scores_3d = List.replicate bs.length 1
    ∧ (result2dict bs none).labels_3d = List.replicate bs.length 2
    ∧ result2dict ([] : List (List α)) (some s) = ⟨[], [], []⟩
    ∧ result2dict ([] : List (List α)) none = ⟨[], [], []⟩ := by
  refine ⟨by simp [result2dict], ?_, ?_, rfl, rfl⟩ <;>
    simp [result2dict, List.map_const']

theorem processFrame_eq (iou : List α → List α → ℚ) (m : String)
    (ti sn : Bool) (sv : ℤ) (i : ℕ) (st : EvalState) (fd : FrameData α)
    (hm : m ∈ supportedFusionMethods) :
    processFrame iou m ti sn sv i st fd
      = Except.ok (frameBody iou ti sn sv i
          (if m = "intermediate_with_comm"
            then { st with total_comm_rates := st.total_comm_rates ++ [fd.comm_rate] }
            else st) fd) := by
  simp only [supportedFusionMethods, List.mem_cons, List.not_mem_nil, or_false] at hm
  rcases hm with rfl | rfl | rfl | rfl | rfl <;> rfl

theorem frameBody_none (iou : List α → List α → ℚ) (ti sn : Bool) (sv : ℤ)
    (i : ℕ) (st : EvalState) (fd : FrameData α) (hp : fd.pred_box = none) :
    frameBody iou ti sn sv i st fd = st := by
  unfold frameBody
  rw [hp]

theorem frameBody_comm_rates (iou : List α → List α → ℚ) (ti sn : Bool) (sv : ℤ)
    (i : ℕ) (st : EvalState) (fd : FrameData α) :
    (frameBody iou ti sn sv i st fd).total_comm_rates = st.total_comm_rates := by
  unfold frameBody
  cases fd.pred_box
  · rfl
  · dsimp only
    split_ifs <;> rfl

theorem frameBody_artifacts (iou : List α → List α → ℚ) (ti sn : Bool) (sv : ℤ)
    (i : ℕ) (st : EvalState) (fd : FrameData α) (hp : fd.pred_box = some pb) :
    (frameBody iou ti sn sv i st fd).artifacts
      = (st.artifacts
          ++ (if sn then ["npy/" ++ toString fd.frame_id] else [])
          ++ (if sv ≠ 0 ∧ (i : ℤ) < sv then
                ["vis_3d/3d_" ++ pad5 fd.frame_id ++ ".png",
                 "vis_bev/bev_" ++ pad5 fd.frame_id ++ ".png"]
              else [])) := by
  unfold frameBody
  rw [hp]
  dsimp only
  split_ifs <;> simp

theorem frameBody_result_stat (iou : List α → List α → ℚ) (sn : Bool) (sv : ℤ)
    (i : ℕ) (st : EvalState) (fd : FrameData α) (pb : List (List α))
    (hp : fd.pred_box = some pb) :
    (frameBody iou false sn sv i st fd).result_stat
      = caluclate_tp_fp iou pb fd.pred_score fd.gt_box
          (caluclate_tp_fp iou pb fd.pred_score fd.gt_box
            (caluclate_tp_fp iou pb fd.pred_score fd.gt_box st.result_stat (3/10))
            (5/10))
          (7/10) := by
  unfold frameBody
  rw [hp]
  dsimp only
  rw [if_neg Bool.false_ne_true]
  split_ifs <;> rfl

theorem frameBody_result_stat_ti (iou : List α → List α → ℚ) (sn : Bool) (sv : ℤ)
    (i : ℕ) (st : EvalState) (fd : FrameData α) :
    (frameBody iou true sn sv i st fd).result_stat = st.result_stat := by
  unfold frameBody
  cases hb : fd.pred_box
  · rfl
  · dsimp only
    rw [if_pos rfl]
    split_ifs <;> rfl

/-- C2: a frame whose fusion result has `pred_box_tensor = None` is skipped
entirely by the loop body — the accumulator and the artifact list are left
untouched (so the frame contributes to no threshold's tp/fp/gt and to no AP)
and the body returns normally, letting the loop continue. -/
theorem none_prediction_skipped (iou : List α → List α → ℚ) (m : String)
    (ti sn : Bool) (sv : ℤ) (i : ℕ) (st : EvalState) (fd : FrameData α)
    (hm : m ∈ supportedFusionMethods) (hp : fd.pred_box = none) :
    ∃ st2, processFrame iou m ti sn sv i st fd = Except.ok st2
      ∧ st2.result_stat = st.result_stat ∧ st2.artifacts = st.artifacts := by
  rw [processFrame_eq iou m ti sn sv i st fd hm]
  refine ⟨_, rfl, ?_⟩
  rw [frameBody_none iou ti sn sv i _ fd hp]
  split_ifs <;> exact ⟨rfl, rfl⟩

/-- Witness for C2 at a concrete `None`-prediction frame. -/
theorem none_prediction_skipped_witness :
    ∃ st2, processFrame iouZero "late" false false 0 0 initEvalState
        { sampleFrame with pred_box := none } = Except.ok st2
      ∧ st2.result_stat = initEvalState.result_stat
      ∧ st2.artifacts = initEvalState.artifacts :=
  none_prediction_skipped iouZero "late" false false 0 0 initEvalState
    { sampleFrame with pred_box := none } (by decide) rfl

/-- C8: under `intermediate_with_comm`, the comm-rate sample is appended
before the `None`-prediction check, so a skipped frame still contributes its
sample: the body returns the input state with exactly the sample appended
and everything else (in particular the accumulator) unchanged. -/
theorem comm_sample_added_before_none_check (iou : List α → List α → ℚ)
    (ti sn : Bool) (sv : ℤ) (i : ℕ) (st : EvalState) (fd : FrameData α)
    (hp : fd.pred_box = none) :
    processFrame iou "intermediate_with_comm" ti sn sv i st fd
      = Except.ok { st with total_comm_rates := st.total_comm_rates ++ [fd.comm_rate] } := by
  rw [processFrame_eq iou "intermediate_with_comm" ti sn sv i st fd (by decide)]
  rw [if_pos rfl, frameBody_none iou ti sn sv i _ fd hp]

/-- Witness for C8 at a concrete `None`-prediction frame. -/
theorem comm_sample_added_before_none_check_witness :
    processFrame iouZero "intermediate_with_comm" false false 0 0 initEvalState
        { sampleFrame with pred_box := none }
      = Except.ok { initEvalState with
          total_comm_rates := initEvalState.total_comm_rates
            ++ [({ sampleFrame with pred_box := none } : FrameData ℕ).comm_rate] } :=
  comm_sample_added_before_none_check iouZero false false 0 0 initEvalState
    { sampleFrame with pred_box := none } rfl

/-- C6: a fusion-method name outside the supported set is rejected fatally at
startup — `mainRun` fails with the assertion before any frame is processed,
whatever the frame list is — while every name in the supported set passes the
per-frame dispatch without ever reaching the `NotImplementedError` branch. -/
theorem fusion_method_validated_at_startup (m : String)
    (hm : m ∉ supportedFusionMethods) :
    (∀ (iou : List ℕ → List ℕ → ℚ) td sn sv ct e frames,
        mainRun iou m td sn sv ct e frames = Except.error "AssertionError")
    ∧ (∀ m2 ∈ supportedFusionMethods, ∀ (iou : List ℕ → List ℕ → ℚ) ti sn sv i st fd,
        ∃ st2, processFrame iou m2 ti sn sv i st fd = Except.ok st2) := by
  constructor
  · intro iou td sn sv ct e frames
    unfold mainRun
    rw [if_neg hm]
  · intro m2 hm2 iou ti sn sv i st fd
    exact ⟨_, processFrame_eq iou m2 ti sn sv i st fd hm2⟩

/-- Witness for C6 at the concrete unsupported name `"middle"`. -/
theorem fusion_method_validated_at_startup_witness :
    (∀ (iou : List ℕ → List ℕ → ℚ) td sn sv ct e frames,
        mainRun iou "middle" td sn sv ct e frames = Except.error "AssertionError")
    ∧ (∀ m2 ∈ supportedFusionMethods, ∀ (iou : List ℕ → List ℕ → ℚ) ti sn sv i st fd,
        ∃ st2, processFrame iou m2 ti sn sv i st fd = Except.ok st2) :=
  fusion_method_validated_at_startup "middle" (by decide)

theorem mainRun_ok_inv (iou : List α → List α → ℚ) (m td : String) (sn : Bool)
    (sv : ℤ) (ct : Option ℚ) (e : String) (frames : List (FrameData α))
    (out : RunOutput) (hok : mainRun iou m td sn sv ct e frames = Except.ok out) :
    ∃ stf, runLoop iou m (containsSub td "test.json") sn sv 0 initEvalState frames
        = Except.ok stf
      ∧ out = { final_state := stf,
                ap_30 := (eval_final_results stf.result_stat).1,
                ap_50 := (eval_final_results stf.result_stat).2.1,
                ap_70 := (eval_final_results stf.result_stat).2.2,
                comm_rates := commMean stf.total_comm_rates,
                report_lines := [mainReport e
                  (eval_final_results stf.result_stat).1
                  (eval_final_results stf.result_stat).2.1
                  (eval_final_results stf.result_stat).2.2
                  (commMean stf.total_comm_rates) ct] } := by
  by_cases hm : m ∈ supportedFusionMethods
  · unfold mainRun at hok
    rw [if_pos hm] at hok
    dsimp only at hok
    rcases hrl : runLoop iou m (containsSub td "test.json") sn sv 0 initEvalState frames
      with e0 | stf
    · rw [hrl] at hok
      exact absurd hok (by simp)
    · rw [hrl] at hok
      dsimp only at hok
      exact ⟨stf, rfl, (Except.ok.injEq _ _).mp hok.symm⟩
  · unfold mainRun at hok
    rw [if_neg hm] at hok
    exact absurd hok (by simp)

theorem mainReport_eq (e : String) (a b c d : ℚ) (ct : Option ℚ) :
    mainReport e a b c d ct
      = "Epoch: " ++ e ++ " | AP @0.3: " ++ fmtFixed 4 a
        ++ " | AP @0.5: " ++ fmtFixed 4 b ++ " | AP @0.7: " ++ fmtFixed 4 c
        ++ " | comm_rate: " ++ fmtFixed 6 d
        ++ ct.elim "" (fun x => " | comm_thre: " ++ fmtFixed 4 x)
        ++ "\n" := by
  cases ct <;> simp [mainReport, Option.elim, String.append_assoc, String.append_empty]

/-- C3: the reported communication rate is the arithmetic mean of all
collected samples (`0` when none were collected); a frame adds exactly one
sample when run under `intermediate_with_comm` and none under any other
supported mode; and `main` reports exactly the mean of the final sample
list. -/
theorem comm_rate_is_arithmetic_mean (m : String) (l : List ℚ)
    (hm : m ∈ supportedFusionMethods) (hl : l ≠ []) :
    commMean [] = 0
    ∧ commMean l = l.sum / (l.length : ℚ)
    ∧ (∀ (iou : List ℕ → List ℕ → ℚ) ti sn sv i st fd st2,
        processFrame iou m ti sn sv i st fd = Except.ok st2 →
          st2.total_comm_rates
            = if m = "intermediate_with_comm"
              then st.total_comm_rates ++ [fd.comm_rate]
              else st.total_comm_rates)
    ∧ (∀ (iou : List ℕ → List ℕ → ℚ) td sn sv ct e frames out,
        mainRun iou m td sn sv ct e frames = Except.ok out →
          out.comm_rates = commMean out.final_state.total_comm_rates) := by
  refine ⟨rfl, ?_, ?_, ?_⟩
  · unfold commMean
    rw [if_pos (List.length_pos.mpr hl)]
  · intro iou ti sn sv i st fd st2 h
    rw [processFrame_eq iou m ti sn sv i st fd hm] at h
    have h2 := (Except.ok.injEq _ _).mp h.symm
    subst h2
    rw [frameBody_comm_rates]
    split_ifs <;> rfl
  · intro iou td sn sv ct e frames out h
    obtain ⟨stf, _, rfl⟩ := mainRun_ok_inv iou m td sn sv ct e frames out h
    rfl

/-- Witness for C3 under `intermediate_with_comm` with sample list `[1/2]`. -/
theorem comm_rate_is_arithmetic_mean_witness :
    commMean [] = 0
    ∧ commMean [1/2] = List.sum [(1:ℚ)/2] / ((List.length [(1:ℚ)/2] : ℕ) : ℚ)
    ∧ (∀ (iou : List ℕ → List ℕ → ℚ) ti sn sv i st fd st2,
        processFrame iou "intermediate_with_comm" ti sn sv i st fd = Except.ok st2 →
          st2.total_comm_rates
            = if "intermediate_with_comm" = "intermediate_with_comm"
              then st.total_comm_rates ++ [fd.comm_rate]
              else st.total_comm_rates)
    ∧ (∀ (iou : List ℕ → List ℕ → ℚ) td sn sv ct e frames out,
        mainRun iou "intermediate_with_comm" td sn sv ct e frames = Except.ok out →
          out.comm_rates = commMean out.final_state.total_comm_rates) :=
  comm_rate_is_arithmetic_mean "intermediate_with_comm" [1/2] (by decide) (by decide)

/-- C4: every successful run appends exactly one report line, whose field
order and precision are `Epoch: <id> | AP @0.3: <4dp> | AP @0.5: <4dp> |
AP @0.7: <4dp> | comm_rate: <6dp>`, with the suffix `| comm_thre: <4dp>`
present precisely when a communication-threshold override was configured. -/
theorem report_single_line_exact_format (iou : List ℕ → List ℕ → ℚ)
    (m td : String) (sn : Bool) (sv : ℤ) (ct : Option ℚ) (e : String)
    (frames : List (FrameData ℕ)) (out : RunOutput)
    (hok : mainRun iou m td sn sv ct e frames = Except.ok out) :
    out.report_lines
      = ["Epoch: " ++ e ++ " | AP @0.3: " ++ fmtFixed 4 out.ap_30
          ++ " | AP @0.5: " ++ fmtFixed 4 out.ap_50
          ++ " | AP @0.7: " ++ fmtFixed 4 out.ap_70
          ++ " | comm_rate: " ++ fmtFixed 6 out.comm_rates
          ++ ct.elim "" (fun c => " | comm_thre: " ++ fmtFixed 4 c)
          ++ "\n"] := by
  obtain ⟨stf, _, rfl⟩ := mainRun_ok_inv iou m td sn sv ct e frames out hok
  exact congrArg (fun x => [x]) (mainReport_eq e _ _ _ _ ct)

/-- Witness for C4: a concrete run with a configured threshold override. -/
theorem report_single_line_exact_format_witness :
    ∃ out, mainRun iouZero "late" "d" false 0 (some (1/2)) "e" [] = Except.ok out
      ∧ out.report_lines
        = ["Epoch: " ++ "e" ++ " | AP @0.3: " ++ fmtFixed 4 out.ap_30
            ++ " | AP @0.5: " ++ fmtFixed 4 out.ap_50
            ++ " | AP @0.7: " ++ fmtFixed 4 out.ap_70
            ++ " | comm_rate: " ++ fmtFixed 6 out.comm_rates
            ++ (some ((1:ℚ)/2)).elim "" (fun c => " | comm_thre: " ++ fmtFixed 4 c)
            ++ "\n"] :=
  ⟨_, rfl, report_single_line_exact_format iouZero "late" "d" false 0 (some (1/2)) "e" [] _ rfl⟩

theorem lookupStat_updateStat (rs : List (ℚ × ThresholdStat)) (t t' : ℚ)
    (f : ThresholdStat → ThresholdStat) :
    lookupStat (updateStat rs t f) t'
      = if t' = t then (lookupStat rs t').map f else lookupStat rs t' := by
  induction rs with
  | nil => simp [lookupStat, updateStat]
  | cons p ps ih =>
    rcases p with ⟨k, v⟩
    simp only [updateStat, List.map_cons]
    by_cases hk : k = t
    · rw [if_pos hk]
      by_cases ht' : k = t'
      · have htt : t' = t := ht' ▸ hk
        rw [if_pos htt]
        show Option.map Prod.snd
            (List.find? (fun p => p.1 == t') (((k, v).1, f (k, v).2) :: updateStat ps t f))
          = (Option.map Prod.snd (List.find? (fun p => p.1 == t') ((k, v) :: ps))).map f
        rw [List.find?_cons_of_pos _ (by simpa using ht'),
          List.find?_cons_of_pos _ (by simpa using ht')]
        rfl
      · have htt : ¬ t' = t := fun h => ht' (hk.trans h.symm)
        rw [if_neg htt]
        show Option.map Prod.snd
            (List.find? (fun p => p.1 == t') (((k, v).1, f (k, v).2) :: updateStat ps t f))
          = Option.map Prod.snd (List.find? (fun p => p.1 == t') ((k, v) :: ps))
        rw [List.find?_cons_of_neg _ (by simpa using ht'),
          List.find?_cons_of_neg _ (by simpa using ht')]
        have := ih
        rw [if_neg htt] at this
        exact this
    · rw [if_neg hk]
      by_cases ht' : k = t'
      · have htt : ¬ t' = t := fun h => hk (ht'.trans h)
        rw [if_neg htt]
        show Option.map Prod.snd (List.find? (fun p => p.1 == t') ((k, v) :: updateStat ps t f))
          = Option.map Prod.snd (List.find? (fun p => p.1 == t') ((k, v) :: ps))
        rw [List.find?_cons_of_pos _ (by simpa using ht'),
          List.find?_cons_of_pos _ (by simpa using ht')]
      · show Option.map Prod.snd (List.find? (fun p => p.1 == t') ((k, v) :: updateStat ps t f))
          = if t' = t
            then (Option.map Prod.snd (List.find? (fun p => p.1 == t') ((k, v) :: ps))).map f
            else Option.map Prod.snd (List.find? (fun p => p.1 == t') ((k, v) :: ps))
        rw [List.find?_cons_of_neg _ (by simpa using ht'),
          List.find?_cons_of_neg _ (by simpa using ht')]
        exact ih

/-- C5 (with the per-threshold recording modelled from the spec): the
accumulator starts as exactly the three-threshold dictionary with empty tp
and fp lists and a zero gt count, and a processed (non-skipped) frame
mutates each of the three thresholds' entries exactly once — the new entry
at each threshold is one `recordFrame` application to the old entry —
independently of the artifact-saving options. -/
theorem accumulator_init_and_single_mutation (iou : List α → List α → ℚ)
    (m : String) (sn : Bool) (sv : ℤ) (i : ℕ) (st : EvalState) (fd : FrameData α)
    (pb : List (List α)) (st2 : EvalState)
    (hm : m ∈ supportedFusionMethods) (hp : fd.pred_box = some pb)
    (hrun : processFrame iou m false sn sv i st fd = Except.ok st2) :
    initResultStat = [(3/10, emptyStat), (5/10, emptyStat), (7/10, emptyStat)]
    ∧ ∀ t ∈ [(3:ℚ)/10, 5/10, 7/10],
        lookupStat st2.result_stat t
          = (lookupStat st.result_stat t).map
              (recordFrame iou t pb fd.pred_score fd.gt_box) := by
  refine ⟨rfl, ?_⟩
  rw [processFrame_eq iou m false sn sv i st fd hm] at hrun
  have h2 := (Except.ok.injEq _ _).mp hrun.symm
  subst h2
  have hbase : (if m = "intermediate_with_comm"
      then { st with total_comm_rates := st.total_comm_rates ++ [fd.comm_rate] }
      else st).result_stat = st.result_stat := by
    split_ifs <;> rfl
  intro t ht
  rw [frameBody_result_stat iou sn sv i _ fd pb hp, hbase]
  simp only [caluclate_tp_fp, lookupStat_updateStat]
  fin_cases ht <;> norm_num

/-- Witness for C5 at a concrete processed frame. -/
theorem accumulator_init_and_single_mutation_witness :
    initResultStat = [(3/10, emptyStat), (5/10, emptyStat), (7/10, emptyStat)]
    ∧ ∀ t ∈ [(3:ℚ)/10, 5/10, 7/10],
        lookupStat (frameBody iouZero false false 0 0 initEvalState sampleFrame).result_stat t
          = (lookupStat initEvalState.result_stat t).map
              (recordFrame iouZero t [[0, 1, 2, 3, 4, 5, 6, 7]]
                sampleFrame.pred_score sampleFrame.gt_box) :=
  accumulator_init_and_single_mutation iouZero "late" false 0 0 initEvalState sampleFrame
    [[0, 1, 2, 3, 4, 5, 6, 7]] _ (by decide) rfl rfl

theorem frameBody_stripState (iou : List α → List α → ℚ) (ti sn : Bool) (sv : ℤ)
    (i : ℕ) (st1 st2 : EvalState) (fd1 fd2 : FrameData α)
    (hfd : stripId fd1 = stripId fd2) (hst : stripState st1 = stripState st2) :
    stripState (frameBody iou ti sn sv i st1 fd1)
      = stripState (frameBody iou ti sn sv i st2 fd2) := by
  obtain ⟨hpb, hsc, hgt, hcr⟩ : fd1.pred_box = fd2.pred_box
      ∧ fd1.pred_score = fd2.pred_score ∧ fd1.gt_box = fd2.gt_box
      ∧ fd1.comm_rate = fd2.comm_rate := by
    simpa [stripId, Prod.ext_iff] using hfd
  obtain ⟨hrs, hcm⟩ : st1.result_stat = st2.result_stat
      ∧ st1.total_comm_rates = st2.total_comm_rates := by
    simpa [stripState, Prod.ext_iff] using hst
  simp only [stripState, Prod.mk.injEq]
  refine ⟨?_, by rw [frameBody_comm_rates, frameBody_comm_rates, hcm]⟩
  rcases hpb1 : fd1.pred_box with _ | pb
  · have hpb2 : fd2.pred_box = none := hpb.symm.trans hpb1
    rw [frameBody_none iou ti sn sv i st1 fd1 hpb1,
      frameBody_none iou ti sn sv i st2 fd2 hpb2]
    exact hrs
  · have hpb2 : fd2.pred_box = some pb := hpb.symm.trans hpb1
    cases ti
    · rw [frameBody_result_stat iou sn sv i st1 fd1 pb hpb1,
        frameBody_result_stat iou sn sv i st2 fd2 pb hpb2, hsc, hgt, hrs]
    · rw [frameBody_result_stat_ti iou sn sv i st1 fd1,
        frameBody_result_stat_ti iou sn sv i st2 fd2]
      exact hrs

theorem processFrame_stripState (iou : List α → List α → ℚ) (m : String)
    (ti sn : Bool) (sv : ℤ) (i : ℕ) (st1 st2 : EvalState) (fd1 fd2 : FrameData α)
    (hfd : stripId fd1 = stripId fd2) (hst : stripState st1 = stripState st2) :
    (processFrame iou m ti sn sv i st1 fd1).map stripState
      = (processFrame iou m ti sn sv i st2 fd2).map stripState := by
  unfold processFrame
  split_ifs
  · simpa [Except.map] using frameBody_stripState iou ti sn sv i st1 st2 fd1 fd2 hfd hst
  · have hst2 : stripState { st1 with total_comm_rates := st1.total_comm_rates ++ [fd1.comm_rate] }
        = stripState { st2 with total_comm_rates := st2.total_comm_rates ++ [fd2.comm_rate] } := by
      obtain ⟨hrs, hcm⟩ : st1.result_stat = st2.result_stat
          ∧ st1.total_comm_rates = st2.total_comm_rates := by
        simpa [stripState, Prod.ext_iff] using hst
      have hcr2 : fd1.comm_rate = fd2.comm_rate := by
        have h4 : fd1.pred_box = fd2.pred_box ∧ fd1.pred_score = fd2.pred_score
            ∧ fd1.gt_box = fd2.gt_box ∧ fd1.comm_rate = fd2.comm_rate := by
          simpa [stripId, Prod.ext_iff] using hfd
        exact h4.2.2.2
      simp [stripState, hrs, hcm, hcr2]
    simpa [Except.map] using frameBody_stripState iou ti sn sv i _ _ fd1 fd2 hfd hst2
  · rfl

theorem runLoop_stripState (iou : List α → List α → ℚ) (m : String) (ti sn : Bool)
    (sv : ℤ) (fs1 : List (FrameData α)) :
    ∀ (fs2 : List (FrameData α)) (i : ℕ) (st1 st2 : EvalState),
      fs1.map stripId = fs2.map stripId → stripState st1 = stripState st2 →
      (runLoop iou m ti sn sv i st1 fs1).map stripState
        = (runLoop iou m ti sn sv i st2 fs2).map stripState := by
  induction fs1 with
  | nil =>
    intro fs2 i st1 st2 hfs hst
    rcases fs2 with _ | ⟨fd2, r2⟩
    · simpa [runLoop, Except.map] using hst
    · simp at hfs
  | cons fd1 r1 ih =>
    intro fs2 i st1 st2 hfs hst
    rcases fs2 with _ | ⟨fd2, r2⟩
    · simp at hfs
    · simp only [List.map_cons, List.cons.injEq] at hfs
      obtain ⟨hfd, hr⟩ := hfs
      have hpf := processFrame_stripState iou m ti sn sv i st1 st2 fd1 fd2 hfd hst
      unfold runLoop
      rcases hp1 : processFrame iou m ti sn sv i st1 fd1 with e1 | s1 <;>
        rcases hp2 : processFrame iou m ti sn sv i st2 fd2 with e2 | s2 <;>
        rw [hp1, hp2] at hpf <;> simp only [Except.map] at hpf
      · cases hpf
        rfl
      · exact absurd hpf (by simp)
      · exact absurd hpf (by simp)
      · exact ih r2 (i+1) s1 s2 hr ((Except.ok.injEq _ _).mp hpf)

/-- C7: the per-frame identifier influences only artifact naming — two runs
whose frame sequences agree on everything except the frame identifiers
produce the same accumulated statistics, the same comm-rate samples, the
same APs and mean comm rate, and the same report line. -/
theorem frame_id_only_names_artifacts (iou : List α → List α → ℚ) (m td : String)
    (sn : Bool) (sv : ℤ) (ct : Option ℚ) (e : String)
    (fs1 fs2 : List (FrameData α)) (h : fs1.map stripId = fs2.map stripId) :
    (mainRun iou m td sn sv ct e fs1).map stripOutput
      = (mainRun iou m td sn sv ct e fs2).map stripOutput := by
  unfold mainRun
  split_ifs with hm
  · dsimp only
    have h0 := runLoop_stripState iou m (containsSub td "test.json") sn sv fs1 fs2 0
      initEvalState initEvalState h rfl
    rcases h1 : runLoop iou m (containsSub td "test.json") sn sv 0 initEvalState fs1
      with e1 | s1 <;>
      rcases h2 : runLoop iou m (containsSub td "test.json") sn sv 0 initEvalState fs2
        with e2 | s2 <;>
      rw [h1, h2] at h0 <;> simp only [Except.map] at h0
    · cases h0
      rfl
    · exact absurd h0 (by simp)
    · exact absurd h0 (by simp)
    · obtain ⟨hrs, hcm⟩ : s1.result_stat = s2.result_stat
          ∧ s1.total_comm_rates = s2.total_comm_rates := by
        simpa [stripState, Prod.ext_iff] using (Except.ok.injEq _ _).mp h0
      simp [Except.map, stripOutput, hrs, hcm]
  · rfl

/-- Witness for C7: two single-frame runs differing only in the frame id. -/
theorem frame_id_only_names_artifacts_witness :
    (mainRun iouZero "late" "d" true 1 none "e" [sampleFrame]).map stripOutput
      = (mainRun iouZero "late" "d" true 1 none "e"
          [{ sampleFrame with frame_id := 99 }]).map stripOutput :=
  frame_id_only_names_artifacts iouZero "late" "d" true 1 none "e"
    [sampleFrame] [{ sampleFrame with frame_id := 99 }] rfl

theorem processFrame_true_result_stat (iou : List α → List α → ℚ) (m : String)
    (sn : Bool) (sv : ℤ) (i : ℕ) (st s1 : EvalState) (fd : FrameData α)
    (hp : processFrame iou m true sn sv i st fd = Except.ok s1) :
    s1.result_stat = st.result_stat := by
  unfold processFrame at hp
  split_ifs at hp <;>
    · have h2 := (Except.ok.injEq _ _).mp hp.symm
      subst h2
      exact frameBody_result_stat_ti iou sn sv i _ fd

theorem runLoop_true_result_stat (iou : List α → List α → ℚ) (m : String)
    (sn : Bool) (sv : ℤ) (fs : List (FrameData α)) :
    ∀ (i : ℕ) (st st2 : EvalState),
      runLoop iou m true sn sv i st fs = Except.ok st2 →
      st2.result_stat = st.result_stat := by
  induction fs with
  | nil =>
    intro i st st2 h
    unfold runLoop at h
    rw [(Except.ok.injEq _ _).mp h.symm]
  | cons fd r ih =>
    intro i st st2 h
    unfold runLoop at h
    rcases hp : processFrame iou m true sn sv i st fd with e | s1
    · rw [hp] at h
      exact absurd h (by simp)
    · rw [hp] at h
      dsimp only at h
      rw [ih (i+1) s1 st2 h]
      exact processFrame_true_result_stat iou m sn sv i st s1 fd hp

theorem frameBody_sideState (iou : List α → List α → ℚ) (ti1 ti2 sn : Bool)
    (sv : ℤ) (i : ℕ) (st1 st2 : EvalState) (fd : FrameData α)
    (hst : sideState st1 = sideState st2) :
    sideState (frameBody iou ti1 sn sv i st1 fd)
      = sideState (frameBody iou ti2 sn sv i st2 fd) := by
  obtain ⟨hcm, hart⟩ : st1.total_comm_rates = st2.total_comm_rates
      ∧ st1.artifacts = st2.artifacts := by
    simpa [sideState, Prod.ext_iff] using hst
  simp only [sideState, Prod.mk.injEq]
  refine ⟨by rw [frameBody_comm_rates, frameBody_comm_rates, hcm], ?_⟩
  rcases hpb : fd.pred_box with _ | pb
  · rw [frameBody_none iou ti1 sn sv i st1 fd hpb, frameBody_none iou ti2 sn sv i st2 fd hpb]
    exact hart
  · rw [frameBody_artifacts iou ti1 sn sv i st1 fd hpb,
      frameBody_artifacts iou ti2 sn sv i st2 fd hpb, hart]

theorem processFrame_sideState (iou : List α → List α → ℚ) (m : String)
    (ti1 ti2 sn : Bool) (sv : ℤ) (i : ℕ) (st1 st2 : EvalState) (fd : FrameData α)
    (hst : sideState st1 = sideState st2) :
    (processFrame iou m ti1 sn sv i st1 fd).map sideState
      = (processFrame iou m ti2 sn sv i st2 fd).map sideState := by
  unfold processFrame
  split_ifs
  · simpa [Except.map] using frameBody_sideState iou ti1 ti2 sn sv i st1 st2 fd hst
  · have hst2 : sideState { st1 with total_comm_rates := st1.total_comm_rates ++ [fd.comm_rate] }
        = sideState { st2 with total_comm_rates := st2.total_comm_rates ++ [fd.comm_rate] } := by
      obtain ⟨hcm, hart⟩ : st1.total_comm_rates = st2.total_comm_rates
          ∧ st1.artifacts = st2.artifacts := by
        simpa [sideState, Prod.ext_iff] using hst
      simp [sideState, hcm, hart]
    simpa [Except.map] using frameBody_sideState iou ti1 ti2 sn sv i _ _ fd hst2
  · rfl

theorem runLoop_sideState (iou : List α → List α → ℚ) (m : String)
    (ti1 ti2 sn : Bool) (sv : ℤ) (fs : List (FrameData α)) :
    ∀ (i : ℕ) (st1 st2 : EvalState),
      sideState st1 = sideState st2 →
      (runLoop iou m ti1 sn sv i st1 fs).map sideState
        = (runLoop iou m ti2 sn sv i st2 fs).map sideState := by
  induction fs with
  | nil =>
    intro i st1 st2 hst
    simpa [runLoop, Except.map] using hst
  | cons fd r ih =>
    intro i st1 st2 hst
    have hpf := processFrame_sideState iou m ti1 ti2 sn sv i st1 st2 fd hst
    unfold runLoop
    rcases hp1 : processFrame iou m ti1 sn sv i st1 fd with e1 | s1 <;>
      rcases hp2 : processFrame iou m ti2 sn sv i st2 fd with e2 | s2 <;>
      rw [hp1, hp2] at hpf <;> simp only [Except.map] at hpf
    · cases hpf
      rfl
    · exact absurd hpf (by simp)
    · exact absurd hpf (by simp)
    · exact ih (i+1) s1 s2 ((Except.ok.injEq _ _).mp hpf)

/-- C9: when the configured test directory contains `"test.json"`, no frame
accumulates TP/FP statistics — the accumulator of a successful run is
exactly the initial one (empty tp/fp lists, zero gt counts), the three APs
are 0 and the report is built from that empty accumulator — while comm-rate
collection, prediction saving and visualization behave exactly as in a run
whose test directory does not contain `"test.json"`. -/
theorem test_json_disables_accumulation (iou : List α → List α → ℚ)
    (m td1 td2 : String) (sn : Bool) (sv : ℤ) (ct : Option ℚ) (e : String)
    (frames : List (FrameData α))
    (h1 : containsSub td1 "test.json" = true)
    (h2 : containsSub td2 "test.json" = false) :
    (∀ out, mainRun iou m td1 sn sv ct e frames = Except.ok out →
        out.final_state.result_stat = initResultStat
        ∧ out.ap_30 = 0 ∧ out.ap_50 = 0 ∧ out.ap_70 = 0
        ∧ out.report_lines = [mainReport e 0 0 0 out.comm_rates ct])
    ∧ (mainRun iou m td1 sn sv ct e frames).map (fun o => sideState o.final_state)
        = (mainRun iou m td2 sn sv ct e frames).map (fun o => sideState o.final_state)
    ∧ (mainRun iou m td1 sn sv ct e frames).map (fun o => o.comm_rates)
        = (mainRun iou m td2 sn sv ct e frames).map (fun o => o.comm_rates) := by
  have hap : eval_final_results initResultStat = (0, 0, 0) := by decide
  refine ⟨?_, ?_⟩
  · intro out hok
    obtain ⟨stf, hrl, rfl⟩ := mainRun_ok_inv iou m td1 sn sv ct e frames out hok
    rw [h1] at hrl
    have hrs : stf.result_stat = initResultStat :=
      runLoop_true_result_stat iou m sn sv frames 0 initEvalState stf hrl
    refine ⟨hrs, ?_, ?_, ?_, ?_⟩ <;> dsimp only <;> rw [hrs, hap]
  · unfold mainRun
    split_ifs with hm
    · dsimp only
      rw [h1, h2]
      have h0 := runLoop_sideState iou m true false sn sv frames 0
        initEvalState initEvalState rfl
      constructor <;>
        · rcases ha : runLoop iou m true sn sv 0 initEvalState frames with e1 | s1 <;>
            rcases hb : runLoop iou m false sn sv 0 initEvalState frames with e2 | s2 <;>
            rw [ha, hb] at h0 <;> simp only [Except.map] at h0
          · cases h0
            rfl
          · exact absurd h0 (by simp)
          · exact absurd h0 (by simp)
          · obtain ⟨hcm, hart⟩ : s1.total_comm_rates = s2.total_comm_rates
                ∧ s1.artifacts = s2.artifacts := by
              simpa [sideState, Prod.ext_iff] using (Except.ok.injEq _ _).mp h0
            simp [Except.map, sideState, hcm, hart]
    · exact ⟨rfl, rfl⟩

/-- Witness for C9: a concrete test-directory pair around one frame. -/
theorem test_json_disables_accumulation_witness :
    (∀ out, mainRun iouZero "late" "dair/test.json" false 0 none "e" [sampleFrame]
          = Except.ok out →
        out.final_state.result_stat = initResultStat
        ∧ out.ap_30 = 0 ∧ out.ap_50 = 0 ∧ out.ap_70 = 0
        ∧ out.report_lines = [mainReport "e" 0 0 0 out.comm_rates none])
    ∧ (mainRun iouZero "late" "dair/test.json" false 0 none "e" [sampleFrame]).map
          (fun o => sideState o.final_state)
        = (mainRun iouZero "late" "dair/train.json" false 0 none "e" [sampleFrame]).map
          (fun o => sideState o.final_state)
    ∧ (mainRun iouZero "late" "dair/test.json" false 0 none "e" [sampleFrame]).map
          (fun o => o.comm_rates)
        = (mainRun iouZero "late" "dair/train.json" false 0 none "e" [sampleFrame]).map
          (fun o => o.comm_rates) :=
  test_json_disables_accumulation iouZero "late" "dair/test.json" "dair/train.json"
    false 0 none "e" [sampleFrame] (by decide) (by decide)

end

end Where2comm
